import Mathlib

/-!
Verification of the repository-synchronization orchestrator and the Git
smart-HTTP bridge of `cmd/frontend/internal/httpapi/internal.go`.

The Go code is shallowly embedded: bytes are `Nat`, strings stay `String`,
external collaborators (gitserver, repo directory, repo-updater) are oracle
functions packaged in an environment record, and the observable side effects
(directory lookups, batch inserts, enqueue calls, metadata-refresh calls,
response writes) are recorded as explicit event traces.
-/

/-! ## Pkt-line codec (`packetWrite`) -/

/-- Byte value of the lowercase hex digit for `d < 16`, as produced by the Go
`strconv.FormatInt(_, 16)` digit table `0123456789abcdef`. -/
def hexDigitByte (d : Nat) : Nat :=
  if d < 10 then 48 + d else 87 + d

/-- Fuel-driven minimal hex formatting: with `n < fuel`, produces the digits
of `n` in base 16, most significant first, with no leading zeros
(matching `strconv.FormatInt(int64 n, 16)` for nonnegative `n`). -/
def formatHexCore : Nat → Nat → List Nat
  | 0, _ => []
  | fuel + 1, n =>
    if n < 16 then [hexDigitByte n]
    else formatHexCore fuel (n / 16) ++ [hexDigitByte (n % 16)]

/-- Minimal lowercase-hex representation of `n` (`strconv.FormatInt(n, 16)`),
as a list of ASCII byte values. 16 digits of fuel cover every value an
`int64` can hold (`n < 16 ^ 16`), which is the argument type that the Go
`FormatInt` call receives in `packetWrite`. -/
def formatHex (n : Nat) : List Nat :=
  formatHexCore 16 n

/-- Numeric value of a lowercase hex digit byte. -/
def hexByteVal (b : Nat) : Nat :=
  if b < 58 then b - 48 else b - 87

/-- Simple hex parse of a byte list (most significant digit first). -/
def parseHex (l : List Nat) : Nat :=
  l.foldl (fun a b => 16 * a + hexByteVal b) 0

/-- Whether a byte is an ASCII lowercase hex digit (`0`-`9` or `a`-`f`). -/
def isLowerHexByte (b : Nat) : Bool :=
  (48 ≤ b && b ≤ 57) || (97 ≤ b && b ≤ 102)

/-- Embedding of `packetWrite` (internal.go:621-627): hex-format
`len(str) + 4`, left-pad the hex string with `'0'` (byte 48) to the next
multiple of 4 if its length is not already a multiple of 4, and prepend it
to the payload. -/
def packetWrite (str : List Nat) : List Nat :=
  (if (formatHex (str.length + 4)).length % 4 ≠ 0 then
    List.replicate (4 - (formatHex (str.length + 4)).length % 4) 48
      ++ formatHex (str.length + 4)
  else
    formatHex (str.length + 4)) ++ str

/-- Bytes of a pure-ASCII Lean string. -/
def strBytes (s : String) : List Nat :=
  s.data.map Char.toNat

/-- The service header line written by `serveGitInfoRefs`. -/
def svcHeaderBytes : List Nat :=
  strBytes "# service=git-upload-pack\n"

/-- The flush packet literal `"0000"` written by `serveGitInfoRefs`. -/
def flushBytes : List Nat :=
  strBytes "0000"

/-! ## Shared data model -/

/-- Error taxonomy for the embedded handlers. -/
inductive Err where
  | notFound (uri : String)
  | repoDisabled (uri : String)
  | unsupportedService
  | other (msg : String)
deriving DecidableEq, Repr

/-- The slice of a repository-directory record the handlers read
(`types.Repo`): its URI and `Enabled` flag. -/
structure Repo where
  uri : String
  enabled : Bool
deriving DecidableEq, Repr

/-- `api.InsertRepoOp` as built by the orchestrator. -/
structure InsertRepoOp where
  uri : String
  enabled : Bool
deriving DecidableEq, Repr

/-- One entry of `conf.Get().Gitolite`: host address plus the optional
Phabricator metadata command. -/
structure GitoliteConfig where
  host : String
  phabricatorMetadataCommand : String
deriving DecidableEq, Repr

/-! ## Sync orchestrator (`serveGitoliteUpdateReposDeprecated`) -/

/-- Oracle environment for the orchestrator. `getByURI` additionally takes
the number of directory lookups of the same name already performed in the
pass, so that a transient lookup failure (fails now, would succeed on a
later call) is representable. The error from `tryInsertNewBatch` is only
logged by the code, so its value never influences control flow. -/
structure SyncEnv where
  gitolite : List GitoliteConfig
  disableAutoGitUpdates : Bool
  listGitolite : String → Except Err (List String)
  getByURI : String → Nat → Except Err Repo
  isRepoCloned : String → Except Err Bool
  enqueueRepoUpdate : String → Except Err Unit
  tryInsertNewBatch : List InsertRepoOp → Except Err Unit

/-- Observable collaborator calls made by the orchestrator. -/
inductive SyncEvent where
  | insertBatch (ops : List InsertRepoOp)
  | lookup (uri : String) (idx : Nat)
  | cloneCheck (uri : String)
  | enqueue (name : String)
  | phabricatorMetadata (host : String) (entry : String)
deriving DecidableEq, Repr

/-- Terminal outcome of one listed entry in one pass (spec `SyncOutcome`;
ephemeral in the code, made explicit here). -/
inductive SyncOutcome where
  | lookupFailed
  | skippedDisabled
  | cloneCheckFailed
  | enqueueFailed
  | fetchTriggered
  | skippedUpToDate
deriving DecidableEq, Repr

/-- Whether an outcome is a per-entry failure (`Failed(reason)` class). -/
def SyncOutcome.isFailed : SyncOutcome → Bool
  | .lookupFailed => true
  | .cloneCheckFailed => true
  | .enqueueFailed => true
  | _ => false

/-- Per-entry reconciliation after a successful directory lookup
(internal.go:77-99): enabled gate, clone-presence check, enqueue decision
`!DisableAutoGitUpdates || !cloned`, enqueue (failure skips the rest of the
entry), then the optional Phabricator metadata refresh. -/
def afterLookup (env : SyncEnv) (g : GitoliteConfig) (entry : String)
    (repo : Repo) : SyncOutcome × List SyncEvent :=
  if !repo.enabled then (.skippedDisabled, [])
  else
    match env.isRepoCloned entry with
    | .error _ => (.cloneCheckFailed, [.cloneCheck entry])
    | .ok cloned =>
      if !env.disableAutoGitUpdates || !cloned then
        match env.enqueueRepoUpdate repo.uri with
        | .error _ => (.enqueueFailed, [.cloneCheck entry, .enqueue repo.uri])
        | .ok _ =>
          if g.phabricatorMetadataCommand ≠ "" then
            (.fetchTriggered,
              [.cloneCheck entry, .enqueue repo.uri,
               .phabricatorMetadata g.host entry])
          else (.fetchTriggered, [.cloneCheck entry, .enqueue repo.uri])
      else
        if g.phabricatorMetadataCommand ≠ "" then
          (.skippedUpToDate, [.cloneCheck entry, .phabricatorMetadata g.host entry])
        else (.skippedUpToDate, [.cloneCheck entry])

/-- One iteration of the per-entry loop (internal.go:69-100): look the entry
up in the repository directory (`idx` = prior lookups of this name in the
pass); a lookup failure is logged and the loop continues. -/
def processEntry (env : SyncEnv) (g : GitoliteConfig) (entry : String)
    (idx : Nat) : SyncOutcome × List SyncEvent :=
  match env.getByURI entry idx with
  | .error _ => (.lookupFailed, [.lookup entry idx])
  | .ok repo =>
    let r := afterLookup env g entry repo
    (r.1, .lookup entry idx :: r.2)

/-- Number of occurrences of `u` in a list of names. -/
def countOcc (u : String) : List String → Nat
  | [] => 0
  | v :: rest => (if v = u then 1 else 0) + countOcc u rest

/-- The per-entry loop over the listed names, threading the set of names
already processed so each lookup carries its occurrence index. -/
def passEntriesAux (env : SyncEnv) (g : GitoliteConfig) :
    List String → List String → List (SyncOutcome × List SyncEvent)
  | _, [] => []
  | seen, e :: rest =>
    processEntry env g e (countOcc e seen)
      :: passEntriesAux env g (seen ++ [e]) rest

/-- Result of the pass of one host: per-entry outcomes (empty when the listing
call failed), the event trace, and the error that aborted the handler, if
any. -/
structure PassResult where
  outcomes : List SyncOutcome
  events : List SyncEvent
  err : Option Err
deriving DecidableEq, Repr

/-- The pass of one host (internal.go:55-100): list the repositories of the
host (a
failure is returned from the whole handler, producing no events for this
host), batch-insert every listed name with `Enabled: true` (the result is
only logged), then reconcile each listed entry independently. -/
def hostPass (env : SyncEnv) (g : GitoliteConfig) : PassResult :=
  match env.listGitolite g.host with
  | .error e => ⟨[], [], some e⟩
  | .ok rlist =>
    let rs := passEntriesAux env g [] rlist
    ⟨rs.map Prod.fst,
     .insertBatch (rlist.map fun e => ⟨e, true⟩) :: (rs.map Prod.snd).flatten,
     none⟩

/-- Aggregate run result of the handler: full event trace and the returned
error, if any. -/
structure RunResult where
  events : List SyncEvent
  err : Option Err
deriving DecidableEq, Repr

/-- The `for _, gconf := range conf.Get().Gitolite` loop: hosts are
processed in order; a pass that ends in an error (`return err` at
internal.go:57) stops the loop and returns that error. -/
def processHosts (env : SyncEnv) : List GitoliteConfig → RunResult
  | [] => ⟨[], none⟩
  | g :: rest =>
    let p := hostPass env g
    match p.err with
    | some e => ⟨p.events, some e⟩
    | none =>
      let r := processHosts env rest
      ⟨p.events ++ r.events, r.err⟩

/-- Embedding of `serveGitoliteUpdateReposDeprecated` (internal.go:47-106). -/
def serveGitoliteUpdateReposDeprecated (env : SyncEnv) : RunResult :=
  processHosts env env.gitolite

/-- An entry is healthy for `env` when none of its oracle calls fails in a
way the loop treats as a per-entry failure: every lookup of it succeeds,
and, if the record is enabled, its clone-presence check succeeds and, when
the enqueue decision fires, the enqueue succeeds. -/
def entryHealthyB (env : SyncEnv) (u : String) (idx : Nat) : Bool :=
  match env.getByURI u idx with
  | .error _ => false
  | .ok repo =>
    if !repo.enabled then true
    else
      match env.isRepoCloned u with
      | .error _ => false
      | .ok cloned =>
        if !env.disableAutoGitUpdates || !cloned then
          match env.enqueueRepoUpdate repo.uri with
          | .error _ => false
          | .ok _ => true
        else true

/-- Whether an event is a directory lookup of the name `u`. -/
def isLookupOf (u : String) : SyncEvent → Bool
  | .lookup v _ => v = u
  | _ => false

/-! ## Git smart-HTTP bridge (`serveGitInfoRefs`, `serveGitUploadPack`) -/

/-- Oracle environment for the protocol bridge: directory lookup, the
`git upload-pack --stateless-rpc --advertise-refs .` output, and the
upload-pack proxy response for a given request body. -/
structure BridgeEnv where
  getByURI : String → Except Err Repo
  advertiseRefs : String → Except Err (List Nat)
  uploadPack : String → List Nat → List Nat

/-- Observable actions of a bridge request handler, in order. -/
inductive BridgeEvent where
  | resolve (uri : String)
  | gitCommand (repoUri : String)
  | uploadPackCall (repoUri : String)
  | setContentType (value : String)
  | writeBody (bytes : List Nat)
deriving DecidableEq, Repr

/-- Result of one bridge request: ordered event trace plus returned error. -/
structure BridgeResult where
  events : List BridgeEvent
  err : Option Err
deriving DecidableEq, Repr

/-- Whether a bridge event writes response body bytes. -/
def BridgeEvent.isWriteBody : BridgeEvent → Bool
  | .writeBody _ => true
  | _ => false

/-- Concatenated response body bytes of a trace. -/
def bodyBytes : List BridgeEvent → List Nat
  | [] => []
  | .writeBody bs :: rest => bs ++ bodyBytes rest
  | _ :: rest => bodyBytes rest

/-- Embedding of `serveGitInfoRefs` (internal.go:580-608): reject any
service other than `git-upload-pack`; resolve the repository; reject a
disabled repository; run the advertise-refs git command; on success set the
content type and write the framed service header, the flush packet, and the
raw advertisement bytes. -/
def serveGitInfoRefs (env : BridgeEnv) (service : String) (uri : String) :
    BridgeResult :=
  if service ≠ "git-upload-pack" then ⟨[], some .unsupportedService⟩
  else
    match env.getByURI uri with
    | .error e => ⟨[.resolve uri], some e⟩
    | .ok repo =>
      if !repo.enabled then ⟨[.resolve uri], some (.repoDisabled repo.uri)⟩
      else
        match env.advertiseRefs repo.uri with
        | .error e => ⟨[.resolve uri, .gitCommand repo.uri], some e⟩
        | .ok refs =>
          ⟨[.resolve uri, .gitCommand repo.uri,
            .setContentType "application/x-git-upload-pack-advertisement",
            .writeBody (packetWrite svcHeaderBytes),
            .writeBody flushBytes,
            .writeBody refs], none⟩

/-- Embedding of `serveGitUploadPack` (internal.go:610-619): resolve the
repository and hand the request straight to the gitserver upload-pack
proxy; no `enabled` check is performed. -/
def serveGitUploadPack (env : BridgeEnv) (uri : String) (body : List Nat) :
    BridgeResult :=
  match env.getByURI uri with
  | .error e => ⟨[.resolve uri], some e⟩
  | .ok repo =>
    ⟨[.resolve uri, .uploadPackCall repo.uri,
      .writeBody (env.uploadPack repo.uri body)], none⟩

/-! ## Concrete environments used by counterexamples and witnesses -/

/-- Host config whose listing call fails in `envC1`. -/
def gH1 : GitoliteConfig := ⟨"h1", ""⟩

/-- Second configured host of `envC1`; its own pass would succeed. -/
def gH2 : GitoliteConfig := ⟨"h2", ""⟩

/-- Two-host environment: listing fails for `h1` and succeeds for `h2`. -/
def envC1 : SyncEnv where
  gitolite := [gH1, gH2]
  disableAutoGitUpdates := false
  listGitolite := fun h =>
    if h = "h1" then .error (.other "listing failed") else .ok ["r"]
  getByURI := fun u _ => .ok ⟨u, true⟩
  isRepoCloned := fun _ => .ok false
  enqueueRepoUpdate := fun _ => .ok ()
  tryInsertNewBatch := fun _ => .ok ()

/-- The same oracles as `envC1`, but with the hosts in the opposite order:
the first configured host `h2` succeeds and the second host `h1` fails its
listing call. -/
def envC1b : SyncEnv where
  gitolite := [gH2, gH1]
  disableAutoGitUpdates := false
  listGitolite := fun h =>
    if h = "h1" then .error (.other "listing failed") else .ok ["r"]
  getByURI := fun u _ => .ok ⟨u, true⟩
  isRepoCloned := fun _ => .ok false
  enqueueRepoUpdate := fun _ => .ok ()
  tryInsertNewBatch := fun _ => .ok ()

/-- Host config of `envC2`. -/
def gC2 : GitoliteConfig := ⟨"h", ""⟩

/-- Environment with auto-updates disabled and every repository cloned. -/
def envC2 : SyncEnv where
  gitolite := [gC2]
  disableAutoGitUpdates := true
  listGitolite := fun _ => .ok ["x"]
  getByURI := fun u _ => .ok ⟨u, true⟩
  isRepoCloned := fun _ => .ok true
  enqueueRepoUpdate := fun _ => .ok ()
  tryInsertNewBatch := fun _ => .ok ()

/-- Host config of `envC8`. -/
def gC8 : GitoliteConfig := ⟨"h", ""⟩

/-- Environment in which exactly the entry `b` fails its directory lookup. -/
def envC8 : SyncEnv where
  gitolite := [gC8]
  disableAutoGitUpdates := false
  listGitolite := fun _ => .ok ["a", "b", "c"]
  getByURI := fun u _ =>
    if u = "b" then .error (.notFound "b") else .ok ⟨u, true⟩
  isRepoCloned := fun _ => .ok false
  enqueueRepoUpdate := fun _ => .ok ()
  tryInsertNewBatch := fun _ => .ok ()

/-- Host config of `envC9`. -/
def gC9 : GitoliteConfig := ⟨"h", ""⟩

/-- The scenario of the spec: listing `a, b, c`; `a` cloned, `b` not; the
first directory lookup of `c` fails transiently and any later lookup would
succeed. -/
def envC9 : SyncEnv where
  gitolite := [gC9]
  disableAutoGitUpdates := false
  listGitolite := fun _ => .ok ["a", "b", "c"]
  getByURI := fun u idx =>
    if u = "c" then
      if idx = 0 then .error (.notFound "c") else .ok ⟨"c", true⟩
    else .ok ⟨u, true⟩
  isRepoCloned := fun u => if u = "a" then .ok true else .ok false
  enqueueRepoUpdate := fun _ => .ok ()
  tryInsertNewBatch := fun _ => .ok ()

/-- Host config with a Phabricator metadata command. -/
def gC10 : GitoliteConfig := ⟨"h", "phab-cmd"⟩

/-- Environment whose update dispatch always fails. -/
def envC10 : SyncEnv where
  gitolite := [gC10]
  disableAutoGitUpdates := false
  listGitolite := fun _ => .ok ["x"]
  getByURI := fun u _ => .ok ⟨u, true⟩
  isRepoCloned := fun _ => .ok false
  enqueueRepoUpdate := fun _ => .error (.other "enqueue failed")
  tryInsertNewBatch := fun _ => .ok ()

/-- Bridge environment whose repository `r` exists but is disabled. -/
def envC3 : BridgeEnv where
  getByURI := fun u => if u = "r" then .ok ⟨"r", false⟩ else .error (.notFound u)
  advertiseRefs := fun _ => .ok [1, 2, 3]
  uploadPack := fun _ _ => [9, 9]

/-- Bridge environment with every repository enabled. -/
def envC4 : BridgeEnv where
  getByURI := fun u => .ok ⟨u, true⟩
  advertiseRefs := fun _ => .ok [70, 71]
  uploadPack := fun _ _ => []

/-! ## Codec lemmas -/

theorem hexByteVal_hexDigitByte : ∀ d, d < 16 → hexByteVal (hexDigitByte d) = d := by
  decide

theorem hexDigitByte_isHex : ∀ d, d < 16 → isLowerHexByte (hexDigitByte d) = true := by
  decide

theorem foldl_formatHexCore (fuel : Nat) :
    ∀ n acc, n < 16 ^ fuel →
      List.foldl (fun a b => 16 * a + hexByteVal b) acc (formatHexCore fuel n)
        = acc * 16 ^ (formatHexCore fuel n).length + n := by
  induction fuel with
  | zero =>
    intro n acc h
    have hn0 : n = 0 := by simpa using h
    subst hn0
    simp [formatHexCore]
  | succ f ih =>
    intro n acc h
    by_cases hn : n < 16
    · have heq : formatHexCore (f + 1) n = [hexDigitByte n] := by
        simp [formatHexCore, hn]
      rw [heq]
      simp [hexByteVal_hexDigitByte n hn, pow_one]
      omega
    · have h0 : 0 < n := by omega
      have hlt : n / 16 < 16 ^ f := by
        refine (Nat.div_lt_iff_lt_mul (by omega)).2 ?_
        have hpow : 16 ^ (f + 1) = 16 ^ f * 16 := pow_succ 16 f
        omega
      have heq : formatHexCore (f + 1) n
          = formatHexCore f (n / 16) ++ [hexDigitByte (n % 16)] := by
        simp [formatHexCore, hn]
      have hm : hexByteVal (hexDigitByte (n % 16)) = n % 16 :=
        hexByteVal_hexDigitByte _ (Nat.mod_lt _ (by omega))
      rw [heq, List.foldl_append, ih (n / 16) acc hlt]
      simp only [List.foldl, List.length_append, List.length_cons,
        List.length_nil, pow_succ, hm]
      rw [← Nat.mul_assoc]
      generalize acc * 16 ^ (formatHexCore f (n / 16)).length = M
      omega

theorem formatHexCore_length_le (fuel : Nat) :
    ∀ k n, n < 16 ^ k → 1 ≤ k → (formatHexCore fuel n).length ≤ k := by
  induction fuel with
  | zero => intro k n _ _; simp [formatHexCore]
  | succ f ih =>
    intro k n hk h1
    by_cases hn : n < 16
    · have heq : formatHexCore (f + 1) n = [hexDigitByte n] := by
        simp [formatHexCore, hn]
      rw [heq]
      simpa using h1
    · have h16 : 16 ≤ n := Nat.le_of_not_lt hn
      have hk2 : 2 ≤ k := by
        rcases Nat.lt_or_ge k 2 with hlt | hge
        · exfalso
          have hk1 : k = 1 := by omega
          rw [hk1, pow_one] at hk
          omega
        · exact hge
      have hpow : 16 ^ k = 16 ^ (k - 1) * 16 := by
        conv_lhs => rw [show k = (k - 1) + 1 by omega]
        rw [pow_succ]
      have hdiv : n / 16 < 16 ^ (k - 1) := by
        refine (Nat.div_lt_iff_lt_mul (by omega)).2 ?_
        omega
      have hrec := ih (k - 1) (n / 16) hdiv (by omega)
      have heq : formatHexCore (f + 1) n
          = formatHexCore f (n / 16) ++ [hexDigitByte (n % 16)] := by
        simp [formatHexCore, hn]
      rw [heq]
      simp only [List.length_append, List.length_cons, List.length_nil]
      omega

theorem formatHexCore_length_pos (fuel n : Nat) (h : 1 ≤ fuel) :
    1 ≤ (formatHexCore fuel n).length := by
  cases fuel with
  | zero => omega
  | succ f =>
    by_cases hn : n < 16
    · simp [formatHexCore, hn]
    · simp [formatHexCore, hn]

theorem formatHex_length_pos (n : Nat) : 1 ≤ (formatHex n).length :=
  formatHexCore_length_pos 16 n (by omega)

theorem formatHexCore_mem_hex (fuel : Nat) :
    ∀ n, ∀ b ∈ formatHexCore fuel n, isLowerHexByte b = true := by
  induction fuel with
  | zero => intro n b hb; simp [formatHexCore] at hb
  | succ f ih =>
    intro n b hb
    by_cases hn : n < 16
    · have heq : formatHexCore (f + 1) n = [hexDigitByte n] := by
        simp [formatHexCore, hn]
      rw [heq] at hb
      simp at hb
      subst hb
      exact hexDigitByte_isHex n hn
    · have heq : formatHexCore (f + 1) n
          = formatHexCore f (n / 16) ++ [hexDigitByte (n % 16)] := by
        simp [formatHexCore, hn]
      rw [heq] at hb
      rcases List.mem_append.1 hb with hb1 | hb2
      · exact ih (n / 16) b hb1
      · simp at hb2
        subst hb2
        exact hexDigitByte_isHex _ (Nat.mod_lt _ (by omega))

theorem parseHex_formatHex (n : Nat) (h : n < 16 ^ 16) :
    parseHex (formatHex n) = n := by
  have h2 := foldl_formatHexCore 16 n 0 h
  simpa [parseHex, formatHex] using h2

theorem parseHex_replicate_zero (k : Nat) (l : List Nat) :
    parseHex (List.replicate k 48 ++ l) = parseHex l := by
  induction k with
  | zero => simp
  | succ m ih =>
    have h48 : hexByteVal 48 = 0 := rfl
    simpa [parseHex, List.replicate_succ, h48] using ih

theorem take_len_append {α : Type} (p l : List α) (n : Nat)
    (h : p.length = n) : (p ++ l).take n = p := by
  subst h
  exact List.take_left p l

theorem drop_len_append {α : Type} (p l : List α) (n : Nat)
    (h : p.length = n) : (p ++ l).drop n = l := by
  subst h
  exact List.drop_left p l

theorem pad4_eq (s : List Nat) (h1 : 1 ≤ s.length) (h4 : s.length ≤ 4) :
    (if s.length % 4 ≠ 0 then List.replicate (4 - s.length % 4) 48 ++ s else s)
      = List.replicate (4 - s.length) 48 ++ s := by
  rcases (show s.length = 1 ∨ s.length = 2 ∨ s.length = 3 ∨ s.length = 4 by
    omega) with h | h | h | h <;> simp [h]

/-! ## Claim C5 -/

/-- C5: for every payload of length `L ≤ 65516`, `packetWrite` returns a
byte string of total length `L + 4` whose first 4 bytes are a lowercase-hex
ASCII string left-padded with `'0'` to exactly 4 characters that parses
back (as hexadecimal) to `L + 4`, followed by the payload unchanged. -/
theorem packetWrite_valid (str : List Nat) (h : str.length ≤ 65516) :
    (packetWrite str).length = str.length + 4 ∧
    packetWrite str =
      (List.replicate (4 - (formatHex (str.length + 4)).length) 48
        ++ formatHex (str.length + 4)) ++ str ∧
    (∀ b ∈ (packetWrite str).take 4, isLowerHexByte b = true) ∧
    parseHex ((packetWrite str).take 4) = str.length + 4 ∧
    (packetWrite str).drop 4 = str := by
  have hd1 : 1 ≤ (formatHex (str.length + 4)).length := formatHex_length_pos _
  have hbig : str.length + 4 < 16 ^ 16 := by
    have h16 : (65520 : Nat) < 16 ^ 16 := by norm_num
    omega
  have hd4 : (formatHex (str.length + 4)).length ≤ 4 := by
    refine formatHexCore_length_le 16 4 _ ?_ (by omega)
    have h16 : (16 : Nat) ^ 4 = 65536 := by norm_num
    omega
  have hpw : packetWrite str =
      (List.replicate (4 - (formatHex (str.length + 4)).length) 48
        ++ formatHex (str.length + 4)) ++ str := by
    unfold packetWrite
    rw [pad4_eq _ hd1 hd4]
  have hplen : (List.replicate (4 - (formatHex (str.length + 4)).length) 48
      ++ formatHex (str.length + 4)).length = 4 := by
    simp only [List.length_append, List.length_replicate]
    omega
  have htake : (packetWrite str).take 4 =
      List.replicate (4 - (formatHex (str.length + 4)).length) 48
        ++ formatHex (str.length + 4) := by
    rw [hpw]
    exact take_len_append _ _ _ hplen
  have hdrop : (packetWrite str).drop 4 = str := by
    rw [hpw]
    exact drop_len_append _ _ _ hplen
  refine ⟨?_, hpw, ?_, ?_, hdrop⟩
  · rw [hpw]
    simp only [List.length_append, List.length_replicate]
    omega
  · intro b hb
    rw [htake] at hb
    rcases List.mem_append.1 hb with hb1 | hb2
    · have hb48 : b = 48 := List.eq_of_mem_replicate hb1
      subst hb48
      rfl
    · exact formatHexCore_mem_hex 16 _ b hb2
  · rw [htake, parseHex_replicate_zero, parseHex_formatHex _ hbig]

/-- Witness for `packetWrite_valid` at the one-byte payload `[100]`. -/
theorem packetWrite_valid_instance :
    ([100] : List Nat).length ≤ 65516 ∧
    ((packetWrite [100]).length = [100].length + 4 ∧
      packetWrite [100] =
        (List.replicate (4 - (formatHex ([100].length + 4)).length) 48
          ++ formatHex ([100].length + 4)) ++ [100] ∧
      (∀ b ∈ (packetWrite [100]).take 4, isLowerHexByte b = true) ∧
      parseHex ((packetWrite [100]).take 4) = [100].length + 4 ∧
      (packetWrite [100]).drop 4 = [100]) :=
  ⟨by decide, packetWrite_valid [100] (by decide)⟩

/-! ## Claim C6 -/

/-- C6 counterexample: at the concrete payload of 65517 `'a'` bytes (one
past the claimed limit), `packetWrite` does not reject: it returns an
ordinary frame, the minimal hex length field (`"fff1"`, still 4 digits)
followed by the payload, with total length `65517 + 4`. -/
theorem packetWrite_oversize_cex :
    packetWrite (List.replicate 65517 97)
      = formatHex 65521 ++ List.replicate 65517 97 ∧
    (packetWrite (List.replicate 65517 97)).length = 65521 ∧
    65516 < (List.replicate 65517 (97 : Nat)).length := by
  have hlen : (List.replicate 65517 (97 : Nat)).length = 65517 :=
    List.length_replicate 65517 97
  have hfmt : (formatHex 65521).length = 4 := by rfl
  have hpw : packetWrite (List.replicate 65517 97)
      = formatHex 65521 ++ List.replicate 65517 97 := by
    unfold packetWrite
    rw [hlen]
    norm_num [hfmt]
  refine ⟨hpw, ?_, by rw [hlen]; omega⟩
  rw [hpw]
  simp only [List.length_append, hfmt, hlen]

/-- C6 amended: `packetWrite` has no error path at all. For every payload
longer than 65516 bytes (indeed for every payload) it still returns
`p ++ payload` where `p` is the nonempty hex length field, zero-padded to a
multiple of 4 characters, consisting of lowercase-hex ASCII bytes and
parsing back to `L + 4`; no framing error is ever produced. The second
hypothesis is the `int64` range constraint under which the Go call
`strconv.FormatInt(int64(len(str)+4), 16)` is total. -/
theorem packetWrite_never_rejects (str : List Nat) (h : 65516 < str.length)
    (h64 : str.length + 4 < 16 ^ 16) :
    ∃ p, packetWrite str = p ++ str ∧ p ≠ [] ∧ p.length % 4 = 0 ∧
      (∀ b ∈ p, isLowerHexByte b = true) ∧ parseHex p = str.length + 4 := by
  have hd1 : 1 ≤ (formatHex (str.length + 4)).length := formatHex_length_pos _
  have hhex : ∀ b ∈ formatHex (str.length + 4), isLowerHexByte b = true :=
    fun b hb => formatHexCore_mem_hex 16 _ b hb
  by_cases hc : (formatHex (str.length + 4)).length % 4 ≠ 0
  · refine ⟨List.replicate (4 - (formatHex (str.length + 4)).length % 4) 48
      ++ formatHex (str.length + 4), ?_, ?_, ?_, ?_, ?_⟩
    · unfold packetWrite
      rw [if_pos hc]
    · intro hnil
      have := congrArg List.length hnil
      simp only [List.length_append, List.length_replicate,
        List.length_nil] at this
      omega
    · simp only [List.length_append, List.length_replicate]
      omega
    · intro b hb
      rcases List.mem_append.1 hb with hb1 | hb2
      · have hb48 : b = 48 := List.eq_of_mem_replicate hb1
        subst hb48
        rfl
      · exact hhex b hb2
    · rw [parseHex_replicate_zero, parseHex_formatHex _ h64]
  · refine ⟨formatHex (str.length + 4), ?_, ?_, ?_, hhex,
      parseHex_formatHex _ h64⟩
    · unfold packetWrite
      rw [if_neg hc]
    · intro hnil
      have := congrArg List.length hnil
      simp only [List.length_nil] at this
      omega
    · omega

/-- Witness for `packetWrite_never_rejects` at the 65517-byte payload. -/
theorem packetWrite_never_rejects_instance :
    65516 < (List.replicate 65517 (97 : Nat)).length ∧
    (List.replicate 65517 (97 : Nat)).length + 4 < 16 ^ 16 ∧
    ∃ p, packetWrite (List.replicate 65517 97) = p ++ List.replicate 65517 97 ∧
      p ≠ [] ∧ p.length % 4 = 0 ∧
      (∀ b ∈ p, isLowerHexByte b = true) ∧
      parseHex p = (List.replicate 65517 (97 : Nat)).length + 4 :=
  ⟨by norm_num, by norm_num,
    packetWrite_never_rejects (List.replicate 65517 97) (by norm_num)
      (by norm_num)⟩

/-! ## Sync orchestrator lemmas -/

theorem afterLookup_not_lookup (env : SyncEnv) (g : GitoliteConfig)
    (entry : String) (repo : Repo) (u : String) (i : Nat) :
    SyncEvent.lookup u i ∉ (afterLookup env g entry repo).2 := by
  unfold afterLookup
  by_cases h1 : (!repo.enabled) = true
  · simp [h1]
  · cases h2 : env.isRepoCloned entry with
    | error e => simp [h1, h2]
    | ok cloned =>
      by_cases h3 : (!env.disableAutoGitUpdates || !cloned) = true
      · cases h4 : env.enqueueRepoUpdate repo.uri with
        | error e => simp [h1, h2, h3, h4]
        | ok uu =>
          by_cases h5 : g.phabricatorMetadataCommand ≠ ""
          · simp [h1, h2, h3, h4, h5]
          · simp [h1, h2, h3, h4, h5]
      · by_cases h5 : g.phabricatorMetadataCommand ≠ ""
        · simp [h1, h2, h3, h5]
        · simp [h1, h2, h3, h5]

theorem filter_lookup_processEntry (env : SyncEnv) (g : GitoliteConfig)
    (entry : String) (idx : Nat) (u : String) :
    (((processEntry env g entry idx).2).filter (isLookupOf u)).length
      = if entry = u then 1 else 0 := by
  unfold processEntry
  cases hr : env.getByURI entry idx with
  | error e =>
    by_cases he : entry = u <;> simp [he, isLookupOf, List.filter]
  | ok repo =>
    show ((SyncEvent.lookup entry idx
        :: (afterLookup env g entry repo).2).filter (isLookupOf u)).length = _
    have htail : (afterLookup env g entry repo).2.filter (isLookupOf u) = [] := by
      rw [List.filter_eq_nil_iff]
      intro ev hev
      cases ev with
      | lookup v i => exact absurd hev (afterLookup_not_lookup env g entry repo v i)
      | insertBatch ops => simp [isLookupOf]
      | cloneCheck v => simp [isLookupOf]
      | enqueue v => simp [isLookupOf]
      | phabricatorMetadata h e => simp [isLookupOf]
    rw [List.filter_cons, htail]
    by_cases he : entry = u <;> simp [he, isLookupOf]

theorem filter_lookup_passEntriesAux (env : SyncEnv) (g : GitoliteConfig)
    (u : String) :
    ∀ rlist seen,
      ((((passEntriesAux env g seen rlist).map Prod.snd).flatten).filter
        (isLookupOf u)).length = countOcc u rlist := by
  intro rlist
  induction rlist with
  | nil => intro seen; simp [passEntriesAux, countOcc]
  | cons e rest ih =>
    intro seen
    simp only [passEntriesAux, List.map_cons, List.flatten_cons,
      List.filter_append, List.length_append, countOcc]
    rw [filter_lookup_processEntry, ih]

theorem processEntry_healthy (env : SyncEnv) (g : GitoliteConfig)
    (entry : String) (idx : Nat) (h : entryHealthyB env entry idx = true) :
    ((processEntry env g entry idx).1).isFailed = false := by
  unfold entryHealthyB at h
  unfold processEntry
  cases hr : env.getByURI entry idx with
  | error e => rw [hr] at h; simp at h
  | ok repo =>
    rw [hr] at h
    simp only [] at h
    show ((afterLookup env g entry repo).1).isFailed = false
    unfold afterLookup
    by_cases h1 : (!repo.enabled) = true
    · simp [h1, SyncOutcome.isFailed]
    · cases h2 : env.isRepoCloned entry with
      | error e => simp [h1, h2] at h
      | ok cloned =>
        by_cases h3 : (!env.disableAutoGitUpdates || !cloned) = true
        · cases h4 : env.enqueueRepoUpdate repo.uri with
          | error e => simp [h1, h2, h3, h4] at h
          | ok uu =>
            by_cases h5 : g.phabricatorMetadataCommand ≠ ""
            · simp [h1, h2, h3, h4, h5, SyncOutcome.isFailed]
            · simp [h1, h2, h3, h4, h5, SyncOutcome.isFailed]
        · by_cases h5 : g.phabricatorMetadataCommand ≠ ""
          · simp [h1, h2, h3, h5, SyncOutcome.isFailed]
          · simp [h1, h2, h3, h5, SyncOutcome.isFailed]

theorem passEntriesAux_length (env : SyncEnv) (g : GitoliteConfig) :
    ∀ rlist seen, (passEntriesAux env g seen rlist).length = rlist.length := by
  intro rlist
  induction rlist with
  | nil => intro seen; simp [passEntriesAux]
  | cons e rest ih =>
    intro seen
    simp [passEntriesAux, ih]

theorem passEntriesAux_outcome_healthy (env : SyncEnv) (g : GitoliteConfig)
    (x : String) :
    ∀ rlist seen,
      (∀ u ∈ rlist, u ≠ x → ∀ idx, entryHealthyB env u idx = true) →
      ∀ (i : Nat) (u : String) (o : SyncOutcome),
        rlist[i]? = some u → u ≠ x →
        ((passEntriesAux env g seen rlist).map Prod.fst)[i]? = some o →
        o.isFailed = false := by
  intro rlist
  induction rlist with
  | nil =>
    intro seen _ i u o hu
    simp at hu
  | cons e rest ih =>
    intro seen hh i u o hu hne ho
    cases i with
    | zero =>
      simp only [List.getElem?_cons_zero, Option.some.injEq] at hu
      simp only [passEntriesAux, List.map_cons, List.getElem?_cons_zero,
        Option.some.injEq] at ho
      subst hu
      subst ho
      exact processEntry_healthy env g e (countOcc e seen)
        (hh e (List.mem_cons_self e rest) hne (countOcc e seen))
    | succ j =>
      simp only [List.getElem?_cons_succ] at hu
      simp only [passEntriesAux, List.map_cons, List.getElem?_cons_succ] at ho
      exact ih (seen ++ [e])
        (fun v hv hvne idx => hh v (List.mem_cons_of_mem e hv) hvne idx)
        j u o hu hne ho

/-! ## Claim C1 -/

/-- C1 counterexample: with two configured hosts where the listing call of
the first host fails, the handler returns that error with an empty event
trace — the pass of the second host is never run, even though that pass, on
its own, would register and enqueue its repository. This contradicts the
claim that the orchestrator still runs the passes for every remaining
configured host. -/
theorem listGitolite_failure_halts_run_cex :
    serveGitoliteUpdateReposDeprecated envC1
      = ⟨[], some (.other "listing failed")⟩ ∧
    (hostPass envC1 gH2).events
      = [.insertBatch [⟨"r", true⟩], .lookup "r" 0, .cloneCheck "r",
         .enqueue "r"] ∧
    SyncEvent.insertBatch [⟨"r", true⟩]
      ∉ (serveGitoliteUpdateReposDeprecated envC1).events := by
  refine ⟨by decide, by decide, by decide⟩

theorem processHosts_fail_at (env : SyncEnv) (g : GitoliteConfig)
    (rest : List GitoliteConfig) (e : Err)
    (hfail : env.listGitolite g.host = Except.error e) :
    ∀ pre : List GitoliteConfig,
      (∀ h ∈ pre, (hostPass env h).err = none) →
      processHosts env (pre ++ g :: rest)
        = ⟨(pre.map fun h => (hostPass env h).events).flatten, some e⟩ := by
  intro pre
  induction pre with
  | nil =>
    intro _
    simp [processHosts, hostPass, hfail]
  | cons h pre ih =>
    intro hok
    have hh : (hostPass env h).err = none := hok h (List.mem_cons_self h pre)
    have hrec := ih (fun x hx => hok x (List.mem_cons_of_mem h hx))
    simp only [List.cons_append, processHosts, hh, List.map_cons,
      List.flatten_cons, List.append_eq]
    rw [hrec]

/-- C1 amended: a failure of the remote listing call for a configured host
at any position — every earlier host having completed its pass without a
listing failure — is fatal for the entire handler run, not only for the
pass of that host: the run returns the listing error, its whole trace is
exactly the events of the earlier hosts, so no registration happens for the
failing host, and no later configured host is processed in that run. -/
theorem listGitolite_failure_halts_run (env : SyncEnv)
    (pre : List GitoliteConfig) (g : GitoliteConfig)
    (rest : List GitoliteConfig) (e : Err)
    (hcfg : env.gitolite = pre ++ g :: rest)
    (hpre : ∀ h ∈ pre, (hostPass env h).err = none)
    (hfail : env.listGitolite g.host = Except.error e) :
    serveGitoliteUpdateReposDeprecated env
      = ⟨(pre.map fun h => (hostPass env h).events).flatten, some e⟩ := by
  unfold serveGitoliteUpdateReposDeprecated
  rw [hcfg]
  exact processHosts_fail_at env g rest e hfail pre hpre

/-- Witness for `listGitolite_failure_halts_run` on `envC1b`, where the
failing host is the second configured one. -/
theorem listGitolite_failure_halts_run_instance :
    envC1b.gitolite = [gH2] ++ gH1 :: [] ∧
    (∀ h ∈ [gH2], (hostPass envC1b h).err = none) ∧
    envC1b.listGitolite gH1.host = Except.error (.other "listing failed") ∧
    serveGitoliteUpdateReposDeprecated envC1b
      = ⟨(([gH2]).map fun h => (hostPass envC1b h).events).flatten,
         some (.other "listing failed")⟩ :=
  ⟨rfl, by decide, rfl,
    listGitolite_failure_halts_run envC1b [gH2] gH1 [] _ rfl (by decide) rfl⟩

/-! ## Claim C2 -/

/-- C2: for an entry that resolves to an enabled record and whose
clone-presence check succeeds, the update enqueue is attempted if and only
if the repository is not cloned or auto-updates are not disabled — the
four-row decision table `(cloned, disabled) ↦ enqueue` is
`(F,T) ↦ yes, (T,T) ↦ no, (F,F) ↦ yes, (T,F) ↦ yes`. -/
theorem enqueue_decision_table (env : SyncEnv) (g : GitoliteConfig)
    (entry : String) (idx : Nat) (repo : Repo) (cloned : Bool)
    (hrepo : env.getByURI entry idx = Except.ok repo)
    (hen : repo.enabled = true)
    (hcl : env.isRepoCloned entry = Except.ok cloned) :
    SyncEvent.enqueue repo.uri ∈ (processEntry env g entry idx).2
      ↔ (cloned = false ∨ env.disableAutoGitUpdates = false) := by
  unfold processEntry
  rw [hrepo]
  show SyncEvent.enqueue repo.uri
      ∈ SyncEvent.lookup entry idx :: (afterLookup env g entry repo).2 ↔ _
  unfold afterLookup
  rw [hcl]
  by_cases h3 : (!env.disableAutoGitUpdates || !cloned) = true
  · have hrhs : cloned = false ∨ env.disableAutoGitUpdates = false := by
      rcases Bool.or_eq_true_iff.1 h3 with hd | hc
      · exact Or.inr (by simpa using hd)
      · exact Or.inl (by simpa using hc)
    cases h4 : env.enqueueRepoUpdate repo.uri with
    | error e => simp [hen, h3, h4, hrhs]
    | ok uu =>
      by_cases h5 : g.phabricatorMetadataCommand ≠ ""
      · simp [hen, h3, h4, h5, hrhs]
      · simp [hen, h3, h4, h5, hrhs]
  · have hrhs : ¬(cloned = false ∨ env.disableAutoGitUpdates = false) := by
      intro hor
      apply h3
      rcases hor with hc | hd
      · subst hc; simp
      · rw [hd]; simp
    by_cases h5 : g.phabricatorMetadataCommand ≠ ""
    · simp [hen, h3, h5, hrhs]
    · simp [hen, h3, h5, hrhs]

/-- Witness for `enqueue_decision_table` on the skip row
`cloned = true, autoUpdatesDisabled = true`. -/
theorem enqueue_decision_table_instance :
    envC2.getByURI "x" 0 = Except.ok ⟨"x", true⟩ ∧
    (Repo.mk "x" true).enabled = true ∧
    envC2.isRepoCloned "x" = Except.ok true ∧
    (SyncEvent.enqueue (Repo.mk "x" true).uri
        ∈ (processEntry envC2 gC2 "x" 0).2
      ↔ (true = false ∨ envC2.disableAutoGitUpdates = false)) :=
  ⟨rfl, rfl, rfl,
    enqueue_decision_table envC2 gC2 "x" 0 ⟨"x", true⟩ true rfl rfl rfl⟩

/-! ## Claim C8 -/

/-- C8: within the pass of one host, per-entry failures are isolated — if every
listed entry other than `x` is healthy (its lookups succeed and, when the
record is enabled, its clone check and any required enqueue succeed), then
every listed entry other than `x` reaches a terminal, non-Failed outcome,
and the pass produces an outcome for every listed entry regardless of what
happens to `x`. -/
theorem pass_entry_failure_isolation (env : SyncEnv) (g : GitoliteConfig)
    (rlist : List String) (x : String)
    (hl : env.listGitolite g.host = Except.ok rlist)
    (hh : ∀ u ∈ rlist, u ≠ x → ∀ idx, entryHealthyB env u idx = true) :
    (hostPass env g).outcomes.length = rlist.length ∧
    ∀ (i : Nat) (u : String) (o : SyncOutcome),
      rlist[i]? = some u → u ≠ x →
      (hostPass env g).outcomes[i]? = some o → o.isFailed = false := by
  have hout : (hostPass env g).outcomes
      = (passEntriesAux env g [] rlist).map Prod.fst := by
    simp [hostPass, hl]
  constructor
  · rw [hout]
    rw [List.length_map]
    exact passEntriesAux_length env g rlist []
  · intro i u o hu hne ho
    rw [hout] at ho
    exact passEntriesAux_outcome_healthy env g x rlist [] hh i u o hu hne ho

/-- Witness for `pass_entry_failure_isolation` on `envC8`, where exactly
the entry `b` fails its lookup. -/
theorem pass_entry_failure_isolation_instance :
    envC8.listGitolite gC8.host = Except.ok ["a", "b", "c"] ∧
    ((hostPass envC8 gC8).outcomes.length
        = (["a", "b", "c"] : List String).length ∧
      ∀ (i : Nat) (u : String) (o : SyncOutcome),
        (["a", "b", "c"] : List String)[i]? = some u → u ≠ "b" →
        (hostPass envC8 gC8).outcomes[i]? = some o → o.isFailed = false) :=
  ⟨rfl,
    pass_entry_failure_isolation envC8 gC8 ["a", "b", "c"] "b" rfl
      (by
        intro u hu hne idx
        simp only [List.mem_cons, List.not_mem_nil, or_false] at hu
        rcases hu with rfl | rfl | rfl
        · rfl
        · exact absurd rfl hne
        · rfl)⟩

/-! ## Claim C9 -/

/-- C9 counterexample: in the very scenario of the spec (listing `a, b, c`;
the first lookup of `c` fails transiently while a second lookup would
succeed), the
pass enqueues `a` and `b`, looks `c` up exactly once with outcome
`lookupFailed`, and never enqueues or re-evaluates `c` — contradicting the
claim that `c` is re-evaluated and processed later in the same pass. -/
theorem single_evaluation_cex :
    hostPass envC9 gC9
      = ⟨[.fetchTriggered, .fetchTriggered, .lookupFailed],
         [.insertBatch [⟨"a", true⟩, ⟨"b", true⟩, ⟨"c", true⟩],
          .lookup "a" 0, .cloneCheck "a", .enqueue "a",
          .lookup "b" 0, .cloneCheck "b", .enqueue "b",
          .lookup "c" 0], none⟩ ∧
    envC9.getByURI "c" 1 = Except.ok ⟨"c", true⟩ ∧
    SyncEvent.enqueue "c" ∉ (hostPass envC9 gC9).events ∧
    SyncEvent.lookup "c" 1 ∉ (hostPass envC9 gC9).events := by
  refine ⟨by decide, rfl, by decide, by decide⟩

/-- C9 amended: within a pass each listed name is looked up exactly once
per occurrence in the listing (the number of lookup events for a name
equals its occurrence count), and an entry whose lookup fails is finished
for the pass with outcome `lookupFailed` and no further processing — it is
re-evaluated only by a later pass, not within the same one. -/
theorem entries_evaluated_once (env : SyncEnv) (g : GitoliteConfig)
    (rlist : List String) (u : String)
    (hl : env.listGitolite g.host = Except.ok rlist) :
    (((hostPass env g).events).filter (isLookupOf u)).length
      = countOcc u rlist ∧
    ∀ (i : Nat) (e : Err), env.getByURI u i = Except.error e →
      processEntry env g u i
        = (SyncOutcome.lookupFailed, [SyncEvent.lookup u i]) := by
  constructor
  · have hev : (hostPass env g).events
        = SyncEvent.insertBatch (rlist.map fun e => ⟨e, true⟩)
          :: ((passEntriesAux env g [] rlist).map Prod.snd).flatten := by
      simp [hostPass, hl]
    rw [hev, List.filter_cons]
    have hni : isLookupOf u
        (SyncEvent.insertBatch (rlist.map fun e => ⟨e, true⟩)) = false := rfl
    rw [hni]
    simp only [Bool.false_eq_true, if_false]
    exact filter_lookup_passEntriesAux env g u rlist []
  · intro i e he
    unfold processEntry
    rw [he]

/-- Witness for `entries_evaluated_once` on `envC9` and the entry `c`. -/
theorem entries_evaluated_once_instance :
    envC9.listGitolite gC9.host = Except.ok ["a", "b", "c"] ∧
    ((((hostPass envC9 gC9).events).filter (isLookupOf "c")).length
        = countOcc "c" ["a", "b", "c"] ∧
      ∀ (i : Nat) (e : Err), envC9.getByURI "c" i = Except.error e →
        processEntry envC9 gC9 "c" i
          = (SyncOutcome.lookupFailed, [SyncEvent.lookup "c" i])) :=
  ⟨rfl, entries_evaluated_once envC9 gC9 ["a", "b", "c"] "c" rfl⟩

/-! ## Claim C10 -/

/-- C10: under a host configuration with a metadata-refresh command, an
entry whose update dispatch fails does not get the Phabricator metadata
refresh (the loop continues to the next entry), while on dispatch success
the metadata refresh is invoked. -/
theorem metadata_skipped_on_enqueue_failure (env : SyncEnv)
    (g : GitoliteConfig) (entry : String) (idx : Nat) (repo : Repo)
    (cloned : Bool)
    (hmeta : g.phabricatorMetadataCommand ≠ "")
    (hrepo : env.getByURI entry idx = Except.ok repo)
    (hen : repo.enabled = true)
    (hcl : env.isRepoCloned entry = Except.ok cloned)
    (hdec : (!env.disableAutoGitUpdates || !cloned) = true) :
    (∀ e, env.enqueueRepoUpdate repo.uri = Except.error e →
      SyncEvent.phabricatorMetadata g.host entry
        ∉ (processEntry env g entry idx).2) ∧
    (env.enqueueRepoUpdate repo.uri = Except.ok () →
      SyncEvent.phabricatorMetadata g.host entry
        ∈ (processEntry env g entry idx).2) := by
  constructor
  · intro e he
    unfold processEntry
    rw [hrepo]
    show SyncEvent.phabricatorMetadata g.host entry
        ∉ SyncEvent.lookup entry idx :: (afterLookup env g entry repo).2
    unfold afterLookup
    rw [hcl]
    simp [hen, hdec, he]
  · intro hok
    unfold processEntry
    rw [hrepo]
    show SyncEvent.phabricatorMetadata g.host entry
        ∈ SyncEvent.lookup entry idx :: (afterLookup env g entry repo).2
    unfold afterLookup
    rw [hcl]
    simp [hen, hdec, hok, hmeta]

/-- Witness for `metadata_skipped_on_enqueue_failure` on `envC10`, whose
dispatch always fails. -/
theorem metadata_skipped_on_enqueue_failure_instance :
    gC10.phabricatorMetadataCommand ≠ "" ∧
    ((∀ e, envC10.enqueueRepoUpdate (Repo.mk "x" true).uri = Except.error e →
        SyncEvent.phabricatorMetadata gC10.host "x"
          ∉ (processEntry envC10 gC10 "x" 0).2) ∧
      (envC10.enqueueRepoUpdate (Repo.mk "x" true).uri = Except.ok () →
        SyncEvent.phabricatorMetadata gC10.host "x"
          ∈ (processEntry envC10 gC10 "x" 0).2)) :=
  ⟨by decide,
    metadata_skipped_on_enqueue_failure envC10 gC10 "x" 0 ⟨"x", true⟩ false
      (by decide) rfl rfl rfl rfl⟩

/-! ## Claim C3 -/

/-- C3 counterexample: repository `r` resolves with `enabled = false`, yet
the upload-pack proxy (`serveGitUploadPack`) returns no error, invokes the
gitserver upload-pack backend, and writes response body bytes — so the
enabled-gate does not protect both bridge operations as claimed. -/
theorem uploadPack_ignores_enabled_cex :
    envC3.getByURI "r" = Except.ok ⟨"r", false⟩ ∧
    serveGitUploadPack envC3 "r" [5]
      = ⟨[.resolve "r", .uploadPackCall "r", .writeBody [9, 9]], none⟩ ∧
    (serveGitUploadPack envC3 "r" [5]).err = none ∧
    BridgeEvent.uploadPackCall "r" ∈ (serveGitUploadPack envC3 "r" [5]).events := by
  refine ⟨rfl, by decide, by decide, by decide⟩

/-- C3 amended: only the ref-advertisement operation enforces the enabled
gate — for a repository that resolves with `enabled = false`,
`serveGitInfoRefs` fails with a repo-disabled error after only the
directory lookup (no git invocation, no body bytes), while
`serveGitUploadPack` performs no enabled check at all: it returns no error,
invokes the upload-pack backend and writes its response for the disabled
repository. -/
theorem enabled_gate_only_infoRefs (env : BridgeEnv) (uri : String)
    (repo : Repo) (body : List Nat)
    (hres : env.getByURI uri = Except.ok repo)
    (hdis : repo.enabled = false) :
    serveGitInfoRefs env "git-upload-pack" uri
      = ⟨[.resolve uri], some (.repoDisabled repo.uri)⟩ ∧
    bodyBytes (serveGitInfoRefs env "git-upload-pack" uri).events = [] ∧
    (serveGitUploadPack env uri body).err = none ∧
    BridgeEvent.uploadPackCall repo.uri
      ∈ (serveGitUploadPack env uri body).events ∧
    BridgeEvent.writeBody (env.uploadPack repo.uri body)
      ∈ (serveGitUploadPack env uri body).events := by
  have h1 : serveGitInfoRefs env "git-upload-pack" uri
      = ⟨[.resolve uri], some (.repoDisabled repo.uri)⟩ := by
    unfold serveGitInfoRefs
    rw [hres]
    simp [hdis]
  have h2 : serveGitUploadPack env uri body
      = ⟨[.resolve uri, .uploadPackCall repo.uri,
          .writeBody (env.uploadPack repo.uri body)], none⟩ := by
    unfold serveGitUploadPack
    rw [hres]
  rw [h1, h2]
  refine ⟨rfl, rfl, rfl, ?_, ?_⟩
  · simp
  · simp

/-- Witness for `enabled_gate_only_infoRefs` on `envC3`. -/
theorem enabled_gate_only_infoRefs_instance :
    envC3.getByURI "r" = Except.ok ⟨"r", false⟩ ∧
    (Repo.mk "r" false).enabled = false ∧
    (serveGitInfoRefs envC3 "git-upload-pack" "r"
        = ⟨[.resolve "r"], some (.repoDisabled (Repo.mk "r" false).uri)⟩ ∧
      bodyBytes (serveGitInfoRefs envC3 "git-upload-pack" "r").events = [] ∧
      (serveGitUploadPack envC3 "r" [5]).err = none ∧
      BridgeEvent.uploadPackCall (Repo.mk "r" false).uri
        ∈ (serveGitUploadPack envC3 "r" [5]).events ∧
      BridgeEvent.writeBody (envC3.uploadPack (Repo.mk "r" false).uri [5])
        ∈ (serveGitUploadPack envC3 "r" [5]).events) :=
  ⟨rfl, rfl, enabled_gate_only_infoRefs envC3 "r" ⟨"r", false⟩ [5] rfl rfl⟩

/-! ## Claim C4 -/

/-- C4: for a repository that resolves, is enabled, and whose
advertise-refs call returns bytes `refs`, the advertisement handler
succeeds with exactly this trace: directory lookup, git invocation,
content type set to the git-upload-pack advertisement media type, then the
body `packetWrite("# service=git-upload-pack\\n")` followed by the flush
frame `"0000"` followed by `refs` verbatim; the content type is set before
any body write. -/
theorem infoRefs_advertisement_layout (env : BridgeEnv) (uri : String)
    (repo : Repo) (refs : List Nat)
    (hres : env.getByURI uri = Except.ok repo)
    (hen : repo.enabled = true)
    (hadv : env.advertiseRefs repo.uri = Except.ok refs) :
    serveGitInfoRefs env "git-upload-pack" uri
      = ⟨[.resolve uri, .gitCommand repo.uri,
          .setContentType "application/x-git-upload-pack-advertisement",
          .writeBody (packetWrite svcHeaderBytes),
          .writeBody flushBytes,
          .writeBody refs], none⟩ ∧
    bodyBytes (serveGitInfoRefs env "git-upload-pack" uri).events
      = packetWrite svcHeaderBytes ++ (flushBytes ++ refs) ∧
    BridgeEvent.setContentType "application/x-git-upload-pack-advertisement"
      ∈ ((serveGitInfoRefs env "git-upload-pack" uri).events.takeWhile
          (fun ev => !ev.isWriteBody)) := by
  have h1 : serveGitInfoRefs env "git-upload-pack" uri
      = ⟨[.resolve uri, .gitCommand repo.uri,
          .setContentType "application/x-git-upload-pack-advertisement",
          .writeBody (packetWrite svcHeaderBytes),
          .writeBody flushBytes,
          .writeBody refs], none⟩ := by
    unfold serveGitInfoRefs
    rw [hres]
    simp [hen, hadv]
  rw [h1]
  refine ⟨rfl, ?_, ?_⟩
  · simp [bodyBytes]
  · simp [List.takeWhile, BridgeEvent.isWriteBody]

/-- Witness for `infoRefs_advertisement_layout` on `envC4`. -/
theorem infoRefs_advertisement_layout_instance :
    envC4.getByURI "r" = Except.ok ⟨"r", true⟩ ∧
    (Repo.mk "r" true).enabled = true ∧
    envC4.advertiseRefs (Repo.mk "r" true).uri = Except.ok [70, 71] ∧
    (serveGitInfoRefs envC4 "git-upload-pack" "r"
        = ⟨[.resolve "r", .gitCommand (Repo.mk "r" true).uri,
            .setContentType "application/x-git-upload-pack-advertisement",
            .writeBody (packetWrite svcHeaderBytes),
            .writeBody flushBytes,
            .writeBody [70, 71]], none⟩ ∧
      bodyBytes (serveGitInfoRefs envC4 "git-upload-pack" "r").events
        = packetWrite svcHeaderBytes ++ (flushBytes ++ [70, 71]) ∧
      BridgeEvent.setContentType "application/x-git-upload-pack-advertisement"
        ∈ ((serveGitInfoRefs envC4 "git-upload-pack" "r").events.takeWhile
            (fun ev => !ev.isWriteBody))) :=
  ⟨rfl, rfl, rfl,
    infoRefs_advertisement_layout envC4 "r" ⟨"r", true⟩ [70, 71] rfl rfl rfl⟩

/-! ## Claim C7 -/

/-- C7: for any service value other than the literal `git-upload-pack`, the
ref-advertisement handler fails with the unsupported-service error and has
no side effects — its trace is empty (no directory lookup, no git
invocation) and zero body bytes are produced. -/
theorem infoRefs_unsupported_service (env : BridgeEnv) (service uri : String)
    (h : service ≠ "git-upload-pack") :
    serveGitInfoRefs env service uri = ⟨[], some Err.unsupportedService⟩ ∧
    bodyBytes (serveGitInfoRefs env service uri).events = [] := by
  have h1 : serveGitInfoRefs env service uri
      = ⟨[], some Err.unsupportedService⟩ := by
    unfold serveGitInfoRefs
    rw [if_pos h]
  refine ⟨h1, ?_⟩
  rw [h1]
  rfl

/-- Witness for `infoRefs_unsupported_service` with service
`git-receive-pack`. -/
theorem infoRefs_unsupported_service_instance :
    ("git-receive-pack" : String) ≠ "git-upload-pack" ∧
    (serveGitInfoRefs envC4 "git-receive-pack" "r"
        = ⟨[], some Err.unsupportedService⟩ ∧
      bodyBytes (serveGitInfoRefs envC4 "git-receive-pack" "r").events = []) :=
  ⟨by decide,
    infoRefs_unsupported_service envC4 "git-receive-pack" "r" (by decide)⟩
